import Mathlib

/-!
Verification of the COLi code generator (`CodeGen_Coli.cpp`).

This file gives a shallow embedding of the generator: the Halide IR node set
it consumes, the generator state (scope tracker, loop-dimension stack, the
three declaration registries, the output text), the recursive visitor, the
constructor (prologue) and destructor (epilogue), and the public entry point
`print_to_coli`.  Fallible code is modelled in `Except Err`; the visitor
takes a fuel parameter bounding recursion depth (the C++ recursion is bounded
by the nesting depth of the input tree, so any sufficiently large fuel
realises the program's behaviour).  Definitions named after host-IR helpers
that live outside the translated file (the let-inliner, `substitute`,
`simplify`, `is_const`, `is_zero`, the IR printer, `Scope`, `Loop::to_string`)
are modelled from the specification and are marked as such.
-/

/-- Error channel of the generator: `user` models `user_error`/`user_assert`
(user-facing diagnostics), `internal` models `internal_assert`/`internal_error`
(internal invariant violations).  `out_of_fuel` is an artifact of the fuelled
embedding and is never produced when the fuel exceeds the tree depth. -/
inductive Err where
  | user (msg : String)
  | internal (msg : String)
  | out_of_fuel

/-- Whether an error travels on the user-facing channel (`user_error`). -/
def Err.is_user : Err → Bool
  | .user _ => true
  | _ => false

/-- Scalar element types of the host IR (`Type`). -/
inductive HType where
  | int (bits : Nat)
  | uint (bits : Nat)
  | float (bits : Nat)
  | boolT
  | handle
deriving DecidableEq

/-- Call types of the host IR's `Call` node. -/
inductive CallType where
  | Halide
  | Image
  | Extern
  | Intrinsic
deriving DecidableEq

/-- Expression nodes of the host IR consumed by the generator.  The payload of
`FloatImm` is opaque to the generator (its numeric value is never rendered for
the supported widths), so it is carried as an integer stand-in.  The `param`
and `image` fields of `Var` record whether `op->param` / `op->image` are
defined. -/
inductive Expr where
  | IntImm (bits : Nat) (value : Int)
  | UIntImm (bits : Nat) (value : Nat)
  | FloatImm (bits : Nat) (value : Int)
  | StringImm (value : String)
  | Cast (t : HType) (value : Expr)
  | Var (t : HType) (name : String) (param : Bool) (image : Bool)
  | Add (a b : Expr)
  | Sub (a b : Expr)
  | Mul (a b : Expr)
  | Div (a b : Expr)
  | Mod (a b : Expr)
  | Min (a b : Expr)
  | Max (a b : Expr)
  | EQ (a b : Expr)
  | NE (a b : Expr)
  | LT (a b : Expr)
  | LE (a b : Expr)
  | GT (a b : Expr)
  | GE (a b : Expr)
  | And (a b : Expr)
  | Or (a b : Expr)
  | Not (a : Expr)
  | Select (cond tval fval : Expr)
  | Load (t : HType) (name : String) (index : Expr)
  | Ramp (base stride : Expr) (lanes : Nat)
  | Broadcast (value : Expr) (lanes : Nat)
  | Call (t : HType) (ct : CallType) (name : String) (args : List Expr)
  | Let (name : String) (value body : Expr)

/-- Statement nodes of the host IR consumed by the generator.  `Block.rest`
and `IfThenElse.else_case` are optional, matching `Stmt.defined()` checks in
the source; `Realize.bounds` carries (min, extent) ranges. -/
inductive Stmt where
  | LetStmt (name : String) (value : Expr) (body : Stmt)
  | AssertStmt (condition message : Expr)
  | ProducerConsumer (name : String) (is_producer : Bool) (body : Stmt)
  | For (name : String) (min extent : Expr) (body : Stmt)
  | Store (name : String) (value index : Expr)
  | Provide (name : String) (values : List Expr) (args : List Expr)
  | Allocate (name : String) (t : HType) (extents : List Expr) (body : Stmt)
  | Free (name : String)
  | Realize (name : String) (types : List HType) (bounds : List (Expr × Expr)) (body : Stmt)
  | Block (first : Stmt) (rest : Option Stmt)
  | IfThenElse (condition : Expr) (then_case : Stmt) (else_case : Option Stmt)
  | Evaluate (value : Expr)

/-- Whether a statement is a `Block` node (`op->body.as<Block>() != NULL`). -/
def Stmt.isBlock : Stmt → Bool
  | .Block _ _ => true
  | _ => false

/-- Static type of an expression, as carried by the host IR nodes
(`Expr::type()`). -/
def Expr.typeOf : Expr → HType
  | .IntImm bits _ => .int bits
  | .UIntImm bits _ => .uint bits
  | .FloatImm bits _ => .float bits
  | .StringImm _ => .handle
  | .Cast t _ => t
  | .Var t _ _ _ => t
  | .Add a _ => a.typeOf
  | .Sub a _ => a.typeOf
  | .Mul a _ => a.typeOf
  | .Div a _ => a.typeOf
  | .Mod a _ => a.typeOf
  | .Min a _ => a.typeOf
  | .Max a _ => a.typeOf
  | .EQ _ _ => .boolT
  | .NE _ _ => .boolT
  | .LT _ _ => .boolT
  | .LE _ _ => .boolT
  | .GT _ _ => .boolT
  | .GE _ _ => .boolT
  | .And _ _ => .boolT
  | .Or _ _ => .boolT
  | .Not _ => .boolT
  | .Select _ tv _ => tv.typeOf
  | .Load t _ _ => t
  | .Ramp base _ _ => base.typeOf
  | .Broadcast v _ => v.typeOf
  | .Call t _ _ _ => t
  | .Let _ _ b => b.typeOf

/-- First binding of a name in an association list; models both lookup in the
scope tracker (each name resolves to its most recent binding) and lookup in a
`std::map` keyed by name. -/
def assoc_lookup : String → List (String × Expr) → Option Expr
  | _, [] => none
  | k, (k2, v) :: rest => if k2 = k then some v else assoc_lookup k rest

/-- Join a list of strings with a separator, as the source's element loops do
("emit the separator after every element but the last"). -/
def joinSep (sep : String) : List String → String
  | [] => ""
  | [x] => x
  | x :: y :: xs => x ++ sep ++ joinSep sep (y :: xs)

/-- The source's `to_string` template over a vector: brackets around the
comma-separated elements. -/
def vec_to_string (elems : List String) : String :=
  "[" ++ joinSep ", " elems ++ "]"

/-- Insertion into a sorted duplicate-free list, modelling `std::set<string>`
(ordered iteration, at-most-once membership). -/
def set_insert : List String → String → List String
  | [], s => [s]
  | x :: xs, s =>
      if s < x then s :: x :: xs
      else if s = x then x :: xs
      else x :: set_insert xs s

/-- Per-character behaviour of the name sanitizer `print_name`'s loop:
`.` becomes `_`, `$` becomes `__`, any other character that is neither `_`
nor alphanumeric becomes `___`, everything else passes through. -/
def sanitize_chars (c : Char) : List Char :=
  if c = '.' then ['_']
  else if c = '$' then ['_', '_']
  else if c ≠ '_' ∧ ¬ c.isAlphanum then ['_', '_', '_']
  else [c]

/-- The name sanitizer `print_name`: a leading underscore when the first
character is alphabetic, then the per-character substitutions of
`sanitize_chars` over the whole name. -/
def print_name (name : String) : String :=
  String.mk
    ((if (name.data.headD (Char.ofNat 0)).isAlpha then ['_'] else []) ++
      (name.data.map sanitize_chars).flatten)

/-- Modelled from the spec: the host's constancy test `is_const` (defined
outside src/) used on loop-dimension bounds; literal nodes are compile-time
constants, and vector constructors of constants remain constant. -/
def is_const : Expr → Bool
  | .IntImm _ _ => true
  | .UIntImm _ _ => true
  | .FloatImm _ _ => true
  | .StringImm _ => true
  | .Ramp base stride _ => is_const base && is_const stride
  | .Broadcast v _ => is_const v
  | _ => false

/-- Modelled from the spec: the host's zero test `is_zero` (defined outside
src/) used on realize lower bounds. -/
def is_zero : Expr → Bool
  | .IntImm _ v => v == 0
  | .UIntImm _ v => v == 0
  | .FloatImm _ v => v == 0
  | .Cast _ e => is_zero e
  | _ => false

/-- Modelled from the spec: the tree-simplification pass applied to a
Constant's value before its first emission is an external collaborator (not
in src/); the spec does not constrain it beyond being a pure
expression-to-expression pass, so it is modelled as the identity. -/
def simplify (e : Expr) : Expr := e

mutual

/-- Modelled from the spec: the host's `substitute` pass (not in src/),
replacing each variable reference bound in the map by the mapped expression;
a let-bound name shadows any mapping of the same name inside the let body. -/
def substitute : List (String × Expr) → Expr → Expr
  | m, .Var t n p i =>
      match assoc_lookup n m with
      | some e => e
      | none => .Var t n p i
  | m, .Let n v b =>
      .Let n (substitute m v) (substitute (m.filter fun p => p.1 ≠ n) b)
  | _, .IntImm b v => .IntImm b v
  | _, .UIntImm b v => .UIntImm b v
  | _, .FloatImm b v => .FloatImm b v
  | _, .StringImm s => .StringImm s
  | m, .Cast t e => .Cast t (substitute m e)
  | m, .Add a b => .Add (substitute m a) (substitute m b)
  | m, .Sub a b => .Sub (substitute m a) (substitute m b)
  | m, .Mul a b => .Mul (substitute m a) (substitute m b)
  | m, .Div a b => .Div (substitute m a) (substitute m b)
  | m, .Mod a b => .Mod (substitute m a) (substitute m b)
  | m, .Min a b => .Min (substitute m a) (substitute m b)
  | m, .Max a b => .Max (substitute m a) (substitute m b)
  | m, .EQ a b => .EQ (substitute m a) (substitute m b)
  | m, .NE a b => .NE (substitute m a) (substitute m b)
  | m, .LT a b => .LT (substitute m a) (substitute m b)
  | m, .LE a b => .LE (substitute m a) (substitute m b)
  | m, .GT a b => .GT (substitute m a) (substitute m b)
  | m, .GE a b => .GE (substitute m a) (substitute m b)
  | m, .And a b => .And (substitute m a) (substitute m b)
  | m, .Or a b => .Or (substitute m a) (substitute m b)
  | m, .Not a => .Not (substitute m a)
  | m, .Select c t f => .Select (substitute m c) (substitute m t) (substitute m f)
  | m, .Load t n i => .Load t n (substitute m i)
  | m, .Ramp b s l => .Ramp (substitute m b) (substitute m s) l
  | m, .Broadcast v l => .Broadcast (substitute m v) l
  | m, .Call t ct n args => .Call t ct n (substitute_list m args)

/-- Pointwise `substitute` over an argument list. -/
def substitute_list : List (String × Expr) → List Expr → List Expr
  | _, [] => []
  | m, e :: es => substitute m e :: substitute_list m es

end

mutual

/-- Modelled from the spec: `substitute_in_all_lets` on expressions (not in
src/) — the entry point's pre-pass that inlines every expression-level
let-binding everywhere in the tree. -/
def substitute_in_all_lets : Expr → Expr
  | .Let n v b =>
      substitute [(n, substitute_in_all_lets v)] (substitute_in_all_lets b)
  | .IntImm b v => .IntImm b v
  | .UIntImm b v => .UIntImm b v
  | .FloatImm b v => .FloatImm b v
  | .StringImm s => .StringImm s
  | .Cast t e => .Cast t (substitute_in_all_lets e)
  | .Var t n p i => .Var t n p i
  | .Add a b => .Add (substitute_in_all_lets a) (substitute_in_all_lets b)
  | .Sub a b => .Sub (substitute_in_all_lets a) (substitute_in_all_lets b)
  | .Mul a b => .Mul (substitute_in_all_lets a) (substitute_in_all_lets b)
  | .Div a b => .Div (substitute_in_all_lets a) (substitute_in_all_lets b)
  | .Mod a b => .Mod (substitute_in_all_lets a) (substitute_in_all_lets b)
  | .Min a b => .Min (substitute_in_all_lets a) (substitute_in_all_lets b)
  | .Max a b => .Max (substitute_in_all_lets a) (substitute_in_all_lets b)
  | .EQ a b => .EQ (substitute_in_all_lets a) (substitute_in_all_lets b)
  | .NE a b => .NE (substitute_in_all_lets a) (substitute_in_all_lets b)
  | .LT a b => .LT (substitute_in_all_lets a) (substitute_in_all_lets b)
  | .LE a b => .LE (substitute_in_all_lets a) (substitute_in_all_lets b)
  | .GT a b => .GT (substitute_in_all_lets a) (substitute_in_all_lets b)
  | .GE a b => .GE (substitute_in_all_lets a) (substitute_in_all_lets b)
  | .And a b => .And (substitute_in_all_lets a) (substitute_in_all_lets b)
  | .Or a b => .Or (substitute_in_all_lets a) (substitute_in_all_lets b)
  | .Not a => .Not (substitute_in_all_lets a)
  | .Select c t f =>
      .Select (substitute_in_all_lets c) (substitute_in_all_lets t)
        (substitute_in_all_lets f)
  | .Load t n i => .Load t n (substitute_in_all_lets i)
  | .Ramp b s l => .Ramp (substitute_in_all_lets b) (substitute_in_all_lets s) l
  | .Broadcast v l => .Broadcast (substitute_in_all_lets v) l
  | .Call t ct n args => .Call t ct n (substitute_in_all_lets_list args)

/-- Pointwise let-inlining over an argument list. -/
def substitute_in_all_lets_list : List Expr → List Expr
  | [] => []
  | e :: es => substitute_in_all_lets e :: substitute_in_all_lets_list es

end

/-- Let-inlining over a list of (min, extent) ranges. -/
def substitute_in_all_lets_bounds (bs : List (Expr × Expr)) : List (Expr × Expr) :=
  bs.map fun p => (substitute_in_all_lets p.1, substitute_in_all_lets p.2)

/-- Modelled from the spec: `substitute_in_all_lets` on statements — inlines
expression-level lets everywhere but leaves statement-level lets (`LetStmt`)
in place, as the source comments note. -/
def substitute_in_all_lets_stmt : Stmt → Stmt
  | .LetStmt n v b =>
      .LetStmt n (substitute_in_all_lets v) (substitute_in_all_lets_stmt b)
  | .AssertStmt c m =>
      .AssertStmt (substitute_in_all_lets c) (substitute_in_all_lets m)
  | .ProducerConsumer n p b => .ProducerConsumer n p (substitute_in_all_lets_stmt b)
  | .For n mn ex b =>
      .For n (substitute_in_all_lets mn) (substitute_in_all_lets ex)
        (substitute_in_all_lets_stmt b)
  | .Store n v i => .Store n (substitute_in_all_lets v) (substitute_in_all_lets i)
  | .Provide n vs args =>
      .Provide n (substitute_in_all_lets_list vs) (substitute_in_all_lets_list args)
  | .Allocate n t ex b =>
      .Allocate n t (substitute_in_all_lets_list ex) (substitute_in_all_lets_stmt b)
  | .Free n => .Free n
  | .Realize n ts bs b =>
      .Realize n ts (substitute_in_all_lets_bounds bs) (substitute_in_all_lets_stmt b)
  | .Block f r =>
      .Block (substitute_in_all_lets_stmt f)
        (match r with
         | some s => some (substitute_in_all_lets_stmt s)
         | none => none)
  | .IfThenElse c t e =>
      .IfThenElse (substitute_in_all_lets c) (substitute_in_all_lets_stmt t)
        (match e with
         | some s => some (substitute_in_all_lets_stmt s)
         | none => none)
  | .Evaluate v => .Evaluate (substitute_in_all_lets v)

mutual

/-- Modelled from the spec: the host IR's textual printer (`IRPrinter`,
outside src/), used by the source's `to_string` template over `Expr` vectors
and by `Loop::to_string`; a plain recursive rendering. -/
def halide_print : Expr → String
  | .IntImm _ v => toString v
  | .UIntImm _ v => toString v
  | .FloatImm _ v => toString v
  | .StringImm s => "\"" ++ s ++ "\""
  | .Cast _ e => "cast(" ++ halide_print e ++ ")"
  | .Var _ n _ _ => n
  | .Add a b => "(" ++ halide_print a ++ " + " ++ halide_print b ++ ")"
  | .Sub a b => "(" ++ halide_print a ++ " - " ++ halide_print b ++ ")"
  | .Mul a b => "(" ++ halide_print a ++ "*" ++ halide_print b ++ ")"
  | .Div a b => "(" ++ halide_print a ++ "/" ++ halide_print b ++ ")"
  | .Mod a b => "(" ++ halide_print a ++ " % " ++ halide_print b ++ ")"
  | .Min a b => "min(" ++ halide_print a ++ ", " ++ halide_print b ++ ")"
  | .Max a b => "max(" ++ halide_print a ++ ", " ++ halide_print b ++ ")"
  | .EQ a b => "(" ++ halide_print a ++ " == " ++ halide_print b ++ ")"
  | .NE a b => "(" ++ halide_print a ++ " != " ++ halide_print b ++ ")"
  | .LT a b => "(" ++ halide_print a ++ " < " ++ halide_print b ++ ")"
  | .LE a b => "(" ++ halide_print a ++ " <= " ++ halide_print b ++ ")"
  | .GT a b => "(" ++ halide_print a ++ " > " ++ halide_print b ++ ")"
  | .GE a b => "(" ++ halide_print a ++ " >= " ++ halide_print b ++ ")"
  | .And a b => "(" ++ halide_print a ++ " && " ++ halide_print b ++ ")"
  | .Or a b => "(" ++ halide_print a ++ " || " ++ halide_print b ++ ")"
  | .Not a => "!" ++ halide_print a
  | .Select c t f =>
      "select(" ++ halide_print c ++ ", " ++ halide_print t ++ ", " ++
        halide_print f ++ ")"
  | .Load _ n i => n ++ "[" ++ halide_print i ++ "]"
  | .Ramp b s _ => "ramp(" ++ halide_print b ++ ", " ++ halide_print s ++ ")"
  | .Broadcast v _ => "broadcast(" ++ halide_print v ++ ")"
  | .Call _ _ n args => n ++ "(" ++ halide_print_args args ++ ")"
  | .Let n v b =>
      "(let " ++ n ++ " = " ++ halide_print v ++ " in " ++ halide_print b ++ ")"

/-- Comma-separated rendering of an argument list. -/
def halide_print_args : List Expr → String
  | [] => ""
  | [e] => halide_print e
  | e :: e2 :: es => halide_print e ++ ", " ++ halide_print_args (e2 :: es)

end

mutual

/-- The `NormalizeVariableName` pre-pass on expressions: sanitizes the names
of `Let` bindings and `Variable` references; all other names are untouched. -/
def normalize_expr : Expr → Expr
  | .IntImm b v => .IntImm b v
  | .UIntImm b v => .UIntImm b v
  | .FloatImm b v => .FloatImm b v
  | .StringImm s => .StringImm s
  | .Cast t e => .Cast t (normalize_expr e)
  | .Var t n p i => .Var t (print_name n) p i
  | .Add a b => .Add (normalize_expr a) (normalize_expr b)
  | .Sub a b => .Sub (normalize_expr a) (normalize_expr b)
  | .Mul a b => .Mul (normalize_expr a) (normalize_expr b)
  | .Div a b => .Div (normalize_expr a) (normalize_expr b)
  | .Mod a b => .Mod (normalize_expr a) (normalize_expr b)
  | .Min a b => .Min (normalize_expr a) (normalize_expr b)
  | .Max a b => .Max (normalize_expr a) (normalize_expr b)
  | .EQ a b => .EQ (normalize_expr a) (normalize_expr b)
  | .NE a b => .NE (normalize_expr a) (normalize_expr b)
  | .LT a b => .LT (normalize_expr a) (normalize_expr b)
  | .LE a b => .LE (normalize_expr a) (normalize_expr b)
  | .GT a b => .GT (normalize_expr a) (normalize_expr b)
  | .GE a b => .GE (normalize_expr a) (normalize_expr b)
  | .And a b => .And (normalize_expr a) (normalize_expr b)
  | .Or a b => .Or (normalize_expr a) (normalize_expr b)
  | .Not a => .Not (normalize_expr a)
  | .Select c t f => .Select (normalize_expr c) (normalize_expr t) (normalize_expr f)
  | .Load t n i => .Load t n (normalize_expr i)
  | .Ramp b s l => .Ramp (normalize_expr b) (normalize_expr s) l
  | .Broadcast v l => .Broadcast (normalize_expr v) l
  | .Call t ct n args => .Call t ct n (normalize_expr_list args)
  | .Let n v b => .Let (print_name n) (normalize_expr v) (normalize_expr b)

/-- Pointwise normalization over an argument list. -/
def normalize_expr_list : List Expr → List Expr
  | [] => []
  | e :: es => normalize_expr e :: normalize_expr_list es

end

/-- Normalization over a list of (min, extent) ranges. -/
def normalize_bounds (bs : List (Expr × Expr)) : List (Expr × Expr) :=
  bs.map fun p => (normalize_expr p.1, normalize_expr p.2)

/-- The `NormalizeVariableName` pre-pass on statements: sanitizes `For`,
`Let` and `LetStmt` binder names and variable references; `ProducerConsumer`,
`Provide`, `Realize` and `Call` names are untouched. -/
def normalize_stmt : Stmt → Stmt
  | .LetStmt n v b => .LetStmt (print_name n) (normalize_expr v) (normalize_stmt b)
  | .AssertStmt c m => .AssertStmt (normalize_expr c) (normalize_expr m)
  | .ProducerConsumer n p b => .ProducerConsumer n p (normalize_stmt b)
  | .For n mn ex b =>
      .For (print_name n) (normalize_expr mn) (normalize_expr ex) (normalize_stmt b)
  | .Store n v i => .Store n (normalize_expr v) (normalize_expr i)
  | .Provide n vs args => .Provide n (normalize_expr_list vs) (normalize_expr_list args)
  | .Allocate n t ex b => .Allocate n t (normalize_expr_list ex) (normalize_stmt b)
  | .Free n => .Free n
  | .Realize n ts bs b => .Realize n ts (normalize_bounds bs) (normalize_stmt b)
  | .Block f r =>
      .Block (normalize_stmt f)
        (match r with
         | some s => some (normalize_stmt s)
         | none => none)
  | .IfThenElse c t e =>
      .IfThenElse (normalize_expr c) (normalize_stmt t)
        (match e with
         | some s => some (normalize_stmt s)
         | none => none)
  | .Evaluate v => .Evaluate (normalize_expr v)

/-- One active loop dimension: name, min expression, extent expression
(the source's `Loop` struct). -/
structure Loop where
  name : String
  min : Expr
  extent : Expr

/-- Modelled from the spec: `Loop::to_string` lives in the header (not in
src/); it renders one range predicate for the dimension from its min/extent
text. -/
def Loop.to_string (l : Loop) : String :=
  halide_print l.min ++ " <= " ++ l.name ++ " < " ++ halide_print l.min ++
    " + " ++ halide_print l.extent

/-- The generator's instance state: the pipeline-function name, the lexical
scope tracker, the loop-dimension stack, the three declaration registries
(computations, constants, and the three buffer-role sets), the current
indentation, and the text accumulated on the output stream. -/
structure CGState where
  func : String
  scope : List (String × Expr)
  loop_dims : List Loop
  computation_list : List String
  constant_list : List String
  output_buffers : List String
  input_buffers : List String
  temporary_buffers : List String
  indent : Nat
  out : String

/-- The source's indentation unit. -/
def tab_size : Nat := 4

/-- Append text to the output stream. -/
def emit (st : CGState) (s : String) : CGState :=
  { st with out := st.out ++ s }

/-- `n` spaces. -/
def indent_spaces (n : Nat) : String :=
  String.mk (List.replicate n ' ')

/-- `do_indent`: write the current indentation to the stream. -/
def do_indent (st : CGState) : CGState :=
  emit st (indent_spaces st.indent)

/-- Modelled from the spec: `Scope::get` (Scope.h is outside src/) — resolve
a name to its most recent binding or fail with an internal lookup error. -/
def scope_get (sc : List (String × Expr)) (n : String) : Except Err Expr :=
  match assoc_lookup n sc with
  | some e => .ok e
  | none => .error (.internal ("Symbol " ++ n ++ " not found.\n"))

/-- Modelled from the spec: `Scope::pop` — remove the most recent binding of
a name, failing (internal) when none exists. -/
def scope_pop : List (String × Expr) → String → Except Err (List (String × Expr))
  | [], _ => .error (.internal "Cannot pop unbound name from scope.\n")
  | (k, v) :: rest, n =>
      if k = n then .ok rest
      else
        match scope_pop rest n with
        | .ok r => .ok ((k, v) :: r)
        | .error e => .error e

/-- `get_loop_bound_vars`'s collection loop: the min/extent subexpressions of
the active dimensions, in push order, skipping compile-time constants. -/
def relevant_exprs : List Loop → List Expr
  | [] => []
  | d :: ds =>
      ((if is_const d.min then [] else [d.min]) ++
        (if is_const d.extent then [] else [d.extent])) ++ relevant_exprs ds

/-- `get_loop_bound_vars`: the bracketed list of non-constant bounds of the
active loop dimensions, or the empty string when every bound is constant. -/
def get_loop_bound_vars (dims : List Loop) : String :=
  let rel := relevant_exprs dims
  if rel.isEmpty then "" else vec_to_string (rel.map halide_print)

/-- `get_loop_bounds`: the conjunction, in push order, of one range predicate
per active dimension. -/
def get_loop_bounds (dims : List Loop) : String :=
  "(" ++ joinSep ") and (" (dims.map Loop.to_string) ++ ")"

/-- `halide_type_to_coli_type_str`: the COLi name of a host scalar type;
floats other than 32/64 bit and non-numeric types fail with `user_error`. -/
def halide_type_to_coli_type_str : HType → Except Err String
  | .uint bits =>
      if bits = 8 then .ok "coli::p_uint8"
      else if bits = 16 then .ok "coli::p_uint16"
      else if bits = 32 then .ok "coli::p_uint32"
      else .ok "coli::p_uint64"
  | .int bits =>
      if bits = 8 then .ok "coli::p_int8"
      else if bits = 16 then .ok "coli::p_int16"
      else if bits = 32 then .ok "coli::p_int32"
      else .ok "coli::p_int64"
  | .float bits =>
      if bits = 32 then .ok "coli::p_float32"
      else if bits = 64 then .ok "coli::p_float64"
      else .error (.user "Floats other than 32 and 64 bits are not suppored in Coli.\n")
  | .boolT => .ok "coli::p_boolean"
  | .handle => .error (.user "Halide type cannot be translated to Coli type.\n")

/-- `std::map::emplace`: insert a binding only when the key is absent. -/
def emplace (m : List (String × Expr)) (k : String) (v : Expr) : List (String × Expr) :=
  if (assoc_lookup k m).isSome then m else m ++ [(k, v)]

/-- The replacement map built by `visit(const For *)`: iterate the scope
tracker's bindings (one per name, most recent binding) and emplace every
binding whose name satisfies `(name != min_name) || (name != extent_name)`,
exactly as the source condition reads. -/
def build_replacements (sc : List (String × Expr)) (min_name extent_name : String) :
    List (String × Expr) :=
  sc.foldl
    (fun m p => if p.1 ≠ min_name ∨ p.1 ≠ extent_name then emplace m p.1 p.2 else m)
    []

/-- The source's element-printing loop over an expression vector: apply the
given printer to each element, with `", "` between consecutive elements. -/
def print_expr_list (pr : Expr → CGState → Except Err CGState) :
    List Expr → CGState → Except Err CGState
  | [], st => .ok st
  | [e], st => pr e st
  | e :: e2 :: es, st => do
      let st ← pr e st
      print_expr_list pr (e2 :: es) (emit st ", ")

/-- The expression visitor `CodeGen_Coli::visit` dispatch.  Every recursive
visit of a subexpression goes through `print`, which first inlines all
expression-level lets, exactly as the source's `print(Expr)` does; the fuel
decreases on each such step. -/
def visit_expr : Nat → Expr → CGState → Except Err CGState
  | 0, _, _ => .error .out_of_fuel
  | _+1, .IntImm bits v, st =>
      let cast_str :=
        if bits = 8 then "(int8_t)"
        else if bits = 16 then "(int16_t)"
        else if bits = 32 then "(int32_t)"
        else ""
      .ok (emit st ("coli::expr(" ++ cast_str ++ toString v ++ ")"))
  | _+1, .UIntImm bits v, st =>
      let cast_str :=
        if bits = 8 then "(uint8_t)"
        else if bits = 16 then "(uint16_t)"
        else if bits = 32 then "(uint32_t)"
        else ""
      .ok (emit st ("coli::expr(" ++ cast_str ++ toString v ++ ")"))
  | _+1, .FloatImm bits _, st =>
      if bits = 32 then .ok (emit st "coli::expr((float)op->value);")
      else if bits = 64 then .ok (emit st "coli::expr(op->value);")
      else
        .error (.user ("Conversion of float " ++ toString bits ++
          "_t to COLi is not currently supported.\n"))
  | _+1, .StringImm _, _ =>
      .error (.user "Conversion of StringImm to COLi is not supported.\n")
  | _+1, .Cast _ _, _ =>
      .error (.user "Conversion of Cast to COLi is not currently supported.\n")
  | _+1, .Var _ n param image, st =>
      if param || image then
        .error (.user "Can only handle conversion of simple variable to COLi for now.\n")
      else if st.constant_list.contains n then .ok (emit st (n ++ "(0)"))
      else .ok (emit st ("coli::idx(\"" ++ n ++ "\")"))
  | n+1, .Add a b, st => do
      let st := emit st "("
      let st ← visit_expr n (substitute_in_all_lets a) st
      let st := emit st " + "
      let st ← visit_expr n (substitute_in_all_lets b) st
      .ok (emit st ")")
  | n+1, .Sub a b, st => do
      let st := emit st "("
      let st ← visit_expr n (substitute_in_all_lets a) st
      let st := emit st " - "
      let st ← visit_expr n (substitute_in_all_lets b) st
      .ok (emit st ")")
  | n+1, .Mul a b, st => do
      let st := emit st "("
      let st ← visit_expr n (substitute_in_all_lets a) st
      let st := emit st "*"
      let st ← visit_expr n (substitute_in_all_lets b) st
      .ok (emit st ")")
  | n+1, .Div a b, st => do
      let st := emit st "("
      let st ← visit_expr n (substitute_in_all_lets a) st
      let st := emit st "/"
      let st ← visit_expr n (substitute_in_all_lets b) st
      .ok (emit st ")")
  | n+1, .Mod a b, st => do
      let st := emit st "("
      let st ← visit_expr n (substitute_in_all_lets a) st
      let st := emit st " % "
      let st ← visit_expr n (substitute_in_all_lets b) st
      .ok (emit st ")")
  | n+1, .Min a b, st => do
      let st := emit st "coli::expr(coli::o_min, "
      let st ← visit_expr n (substitute_in_all_lets a) st
      let st := emit st ", "
      let st ← visit_expr n (substitute_in_all_lets b) st
      .ok (emit st ")")
  | n+1, .Max a b, st => do
      let st := emit st "coli::expr(coli::o_max, "
      let st ← visit_expr n (substitute_in_all_lets a) st
      let st := emit st ", "
      let st ← visit_expr n (substitute_in_all_lets b) st
      .ok (emit st ")")
  | n+1, .EQ a b, st => do
      let st := emit st "("
      let st ← visit_expr n (substitute_in_all_lets a) st
      let st := emit st " == "
      let st ← visit_expr n (substitute_in_all_lets b) st
      .ok (emit st ")")
  | n+1, .NE a b, st => do
      let st := emit st "("
      let st ← visit_expr n (substitute_in_all_lets a) st
      let st := emit st " != "
      let st ← visit_expr n (substitute_in_all_lets b) st
      .ok (emit st ")")
  | n+1, .LT a b, st => do
      let st := emit st "("
      let st ← visit_expr n (substitute_in_all_lets a) st
      let st := emit st " < "
      let st ← visit_expr n (substitute_in_all_lets b) st
      .ok (emit st ")")
  | n+1, .LE a b, st => do
      let st := emit st "("
      let st ← visit_expr n (substitute_in_all_lets a) st
      let st := emit st " <= "
      let st ← visit_expr n (substitute_in_all_lets b) st
      .ok (emit st ")")
  | n+1, .GT a b, st => do
      let st := emit st "("
      let st ← visit_expr n (substitute_in_all_lets a) st
      let st := emit st " > "
      let st ← visit_expr n (substitute_in_all_lets b) st
      .ok (emit st ")")
  | n+1, .GE a b, st => do
      let st := emit st "("
      let st ← visit_expr n (substitute_in_all_lets a) st
      let st := emit st " >= "
      let st ← visit_expr n (substitute_in_all_lets b) st
      .ok (emit st ")")
  | n+1, .And a b, st => do
      let st := emit st "("
      let st ← visit_expr n (substitute_in_all_lets a) st
      let st := emit st " && "
      let st ← visit_expr n (substitute_in_all_lets b) st
      .ok (emit st ")")
  | n+1, .Or a b, st => do
      let st := emit st "("
      let st ← visit_expr n (substitute_in_all_lets a) st
      let st := emit st " || "
      let st ← visit_expr n (substitute_in_all_lets b) st
      .ok (emit st ")")
  | n+1, .Not a, st => do
      let st := emit st "!"
      visit_expr n (substitute_in_all_lets a) st
  | n+1, .Select c t f, st => do
      let st := do_indent st
      let st := emit st "coli::expr(coli::o_cond, "
      let st ← visit_expr n (substitute_in_all_lets c) st
      let st := emit st ", "
      let st ← visit_expr n (substitute_in_all_lets t) st
      let st := emit st ", "
      let st ← visit_expr n (substitute_in_all_lets f) st
      .ok (emit st ")")
  | _+1, .Load _ _ _, _ =>
      .error (.user "Conversion of Load to COLi is not currently supported.\n")
  | _+1, .Ramp _ _ _, _ =>
      .error (.user "Conversion of Ramp to COLi is not supported.\n")
  | _+1, .Broadcast _ _, _ =>
      .error (.user "Conversion of Broadcast to COLi is not supported.\n")
  | n+1, .Call t ct nm args, st =>
      if ¬ (ct = CallType.Halide ∨ ct = CallType.Image) then
        .error (.user ("Only handle call to halide func or image for now.\n" ++
          halide_print (.Call t ct nm args) ++ "\n"))
      else if ¬ st.computation_list.contains nm then
        .error (.internal "Call to computation that does not exist.\n")
      else do
        let st := emit st (nm ++ "(")
        let st ← print_expr_list (fun e st => visit_expr n (substitute_in_all_lets e) st) args st
        .ok (emit st ")")
  | _+1, .Let _ _ _, _ =>
      .error
        (.user "Should not have encountered Let expr since we've called substitute_in_all_lets.\n")

/-- `CodeGen_Coli::print(Expr)`: inline all expression-level lets, then
dispatch to the visitor. -/
def print_expr (fuel : Nat) (e : Expr) (st : CGState) : Except Err CGState :=
  visit_expr fuel (substitute_in_all_lets e) st

/-- `CodeGen_Coli::define_constant`: refuse redefinition (internal), simplify
the value, emit the `coli::constant` declaration around the printed value,
and register the name in the constant registry. -/
def define_constant (fuel : Nat) (name : String) (val : Expr) (st : CGState) :
    Except Err CGState :=
  if st.constant_list.contains name then
    .error (.internal "Redefinition of lets is not supported right now.\n")
  else do
    let val := simplify val
    let st := do_indent st
    let st := emit st ("coli::constant " ++ name ++ "(\"" ++ name ++ "\", ")
    let st ← print_expr fuel val st
    let ts ← halide_type_to_coli_type_str val.typeOf
    let st := emit st (", " ++ ts ++ ", true, NULL, 0, &" ++ st.func ++ ");\n")
    .ok { st with constant_list := set_insert st.constant_list name }

/-- The `Provide` argument check: every index argument must be a bare
variable reference, else a user error. -/
def check_provide_args : List Expr → Except Err Unit
  | [] => .ok ()
  | .Var _ _ _ _ :: rest => check_provide_args rest
  | _ :: _ =>
      .error
        (.user "Expect args of provide to be loop dims for now (doesn't currently handle update).\n")

/-- The `Realize` type check: all dimension types must be pairwise equal,
else a user error. -/
def check_realize_types : List HType → Except Err Unit
  | [] => .ok ()
  | [_] => .ok ()
  | t1 :: t2 :: ts =>
      if t1 = t2 then check_realize_types (t2 :: ts)
      else .error (.user "Realize node should have the same types for all dimensions for now.\n")

/-- The `Realize` bound check: every dimension's lower bound must be zero,
else a user error. -/
def check_realize_bounds : List (Expr × Expr) → Except Err Unit
  | [] => .ok ()
  | (mn, _) :: rest =>
      if is_zero mn then check_realize_bounds rest
      else .error (.user "Bound of realize node should start from 0 for now.\n")

/-- The statement visitor `CodeGen_Coli::visit` dispatch.  As in the source,
every recursive visit of a sub-statement or embedded expression goes through
`print`, which first inlines expression-level lets. -/
def visit_stmt : Nat → Stmt → CGState → Except Err CGState
  | 0, _, _ => .error .out_of_fuel
  | n+1, .LetStmt nm v body, st => do
      let st := { st with scope := (nm, v) :: st.scope }
      let st ← visit_stmt n (substitute_in_all_lets_stmt body) st
      match scope_pop st.scope nm with
      | .ok sc => .ok { st with scope := sc }
      | .error e => .error e
  | _+1, .AssertStmt _ _, st => .ok st
  | n+1, .ProducerConsumer nm isP body, st =>
      if body.isBlock then .error (.user "Does not currently handle update.\n")
      else if isP && st.computation_list.contains nm then
        .error (.internal "Found another computation with the same name.\n")
      else
        match visit_stmt n (substitute_in_all_lets_stmt body) st with
        | .error e => .error e
        | .ok st2 => .ok { st2 with loop_dims := st.loop_dims }
  | n+1, .For nm mn ex body, st =>
      let st := { st with loop_dims := st.loop_dims ++ [⟨nm, mn, ex⟩] }
      match mn with
      | .Var _ min_name _ _ =>
        match ex with
        | .Var _ extent_name _ _ => do
          let min_val ← scope_get st.scope min_name
          let extent_val ← scope_get st.scope extent_name
          let replacements := build_replacements st.scope min_name extent_name
          let min_val := substitute replacements min_val
          let min_val := substitute replacements min_val
          let extent_val := substitute replacements extent_val
          let extent_val := substitute replacements extent_val
          let st := do_indent st
          let st := emit st ("// Define loop bounds for dimension \"" ++ nm ++ "\".\n")
          let st ← define_constant n min_name min_val st
          let st ← define_constant n extent_name extent_val st
          let st := emit st "\n"
          let st ← visit_stmt n (substitute_in_all_lets_stmt body) st
          .ok { st with loop_dims := st.loop_dims.dropLast }
        | _ => .error (.internal "Extent of a loop should have been a variable.\n")
      | _ => .error (.internal "Min value of a loop should have been a variable.\n")
  | _+1, .Store _ _ _, _ =>
      .error (.user "Should pass the unflatten version of Store to COLi\n.\n")
  | _+1, .Allocate _ _ _ _, _ =>
      .error (.user "Should pass the unflatten version of Allocate to COLi\n.\n")
  | _+1, .Free _, _ =>
      .error (.user "Conversion of Free to COLi is not supported.\n")
  | n+1, .Realize nm types bounds body, st =>
      if st.temporary_buffers.contains ("buff_" ++ nm) then
        .error (.user "Duplicate allocation (i.e. duplicate compute) is not currently supported.\n")
      else do
        check_realize_types types
        check_realize_bounds bounds
        let st := do_indent st
        let buffer_name := "buff_" ++ nm
        let st := do_indent st
        let st := emit st ("coli::buffer " ++ buffer_name ++ "(\"" ++ buffer_name ++
          "\", " ++ toString bounds.length ++ ", ")
        let st := emit st "\x7b"
        let st ←
          print_expr_list (fun e st => visit_expr n (substitute_in_all_lets e) st)
            (bounds.map Prod.snd) st
        let st := emit st "\x7d, "
        match types with
        | [] => .error (.internal "Realize node has no types.\n")
        | t0 :: _ => do
          let ts ← halide_type_to_coli_type_str t0
          let st := emit st (ts ++ ", NULL, coli::a_temporary, &" ++ st.func ++ ");\n")
          let st := { st with temporary_buffers := set_insert st.temporary_buffers buffer_name }
          visit_stmt n (substitute_in_all_lets_stmt body) st
  | n+1, .Provide nm values args, st =>
      if st.computation_list.contains nm then
        .error (.internal "Duplicate computation is not currently supported.\n")
      else if ¬ (st.temporary_buffers.contains ("buff_" ++ nm) ||
          st.output_buffers.contains ("buff_" ++ nm)) then
        .error (.internal "The buffer should have been allocated previously.\n")
      else do
        check_provide_args args
        match values with
        | [v] => do
          let st := do_indent st
          let st := emit st ("coli::computation " ++ nm ++ "(\"")
          let st := { st with indent := st.indent + 5 * tab_size }
          let dims_str := vec_to_string (args.map halide_print)
          let symbolic_str := get_loop_bound_vars st.loop_dims
          let st :=
            if symbolic_str ≠ "" then
              emit st (get_loop_bound_vars st.loop_dims ++ "->\x7b" ++ nm ++ dims_str ++ ": \"\n")
            else
              emit st ("\x7b" ++ nm ++ dims_str ++ ": \"\n")
          let st := do_indent st
          let st := emit st ("\"" ++ get_loop_bounds st.loop_dims ++ "\x7d\", \n")
          let st := do_indent st
          let st ← visit_expr n (substitute_in_all_lets v) st
          let ts ← halide_type_to_coli_type_str v.typeOf
          let st := emit st (", true, " ++ ts ++ ", &" ++ st.func ++ ");\n")
          let st := { st with indent := st.indent - 5 * tab_size }
          let access_str :=
            "\x7b" ++ nm ++ dims_str ++ "->" ++ "buff_" ++ nm ++ dims_str ++ "\x7d"
          let st := do_indent st
          let st := emit st (nm ++ ".set_access(\"" ++ access_str ++ "\");\n")
          .ok { st with computation_list := set_insert st.computation_list nm }
        | _ => .error (.user "Expect 1D store (no tuple) in the Provide node for now.\n")
  | n+1, .Block first rest, st => do
      let st ← visit_stmt n (substitute_in_all_lets_stmt first) st
      match rest with
      | some r => visit_stmt n (substitute_in_all_lets_stmt r) st
      | none => .ok st
  | n+1, .IfThenElse _ tc _, st =>
      visit_stmt n (substitute_in_all_lets_stmt tc) st
  | _+1, .Evaluate _, st => .ok st

/-- `CodeGen_Coli::print(Stmt)`: inline all expression-level lets, then
dispatch to the visitor. -/
def print_stmt (fuel : Nat) (s : Stmt) (st : CGState) : Except Err CGState :=
  visit_stmt fuel (substitute_in_all_lets_stmt s) st

/-- A pipeline output function: its name and its pure arguments (one per
buffer dimension), the part of the host `Function` the constructor reads. -/
structure HalideFunction where
  name : String
  args : List String

/-- The fixed include preamble emitted by the constructor. -/
def headers : String :=
  "#include <isl/set.h>\n" ++
  "#include <isl/union_map.h>\n" ++
  "#include <isl/union_set.h>\n" ++
  "#include <isl/ast_build.h>\n" ++
  "#include <isl/schedule.h>\n" ++
  "#include <isl/schedule_node.h>\n\n" ++
  "#include <coli/debug.h>\n" ++
  "#include <coli/core.h>\n\n" ++
  "#include <string.h>\n" ++
  "#include <Halide.h>\n" ++
  "#include \"halide_image_io.h\"\n"

/-- The constructor's per-dimension loop for one output buffer: build the
sizes string and push the `name.min.i` / `name.extent.i` scope bindings
(min 0, extent the literal size, both 32-bit constants). -/
def output_buffer_dims : String → List Int → Nat → List (String × Expr) →
    String × List (String × Expr)
  | _, [], _, sc => ("", sc)
  | fname, e :: rest, i, sc =>
      let min_str := print_name (fname ++ ".min." ++ toString i)
      let extent_str := print_name (fname ++ ".extent." ++ toString i)
      let sc := (extent_str, Expr.IntImm 32 e) :: (min_str, Expr.IntImm 32 0) :: sc
      let piece := "coli::expr(" ++ toString e ++ ")" ++ (if rest.isEmpty then "" else ", ")
      let (rest_str, sc) := output_buffer_dims fname rest (i + 1) sc
      (piece ++ rest_str, sc)

/-- The constructor's loop over output buffers: emit one output-role
`coli::buffer` declaration per output and register it. -/
def construct_outputs : List HalideFunction → List (List Int) → List HType →
    CGState → Except Err CGState
  | [], [], [], st => .ok st
  | f :: fs, ext :: exts, t :: ts, st =>
      if f.args.length = ext.length then do
        let (sizes, sc) := output_buffer_dims f.name ext 0 st.scope
        let st := { st with scope := sc }
        let buffer_name := "buff_" ++ f.name
        let ts_str ← halide_type_to_coli_type_str t
        let st := do_indent st
        let st := emit st ("coli::buffer " ++ buffer_name ++ "(\"" ++ buffer_name ++
          "\", " ++ toString f.args.length ++ ", \x7b" ++ sizes ++ "\x7d, " ++ ts_str ++
          ", NULL, coli::a_output, &" ++ st.func ++ ");\n")
        construct_outputs fs exts ts
          { st with output_buffers := set_insert st.output_buffers buffer_name }
      else .error (.internal "Number of buffer extents does not match the function arity.\n")
  | _, _, _, _ => .error (.internal "Output description lists have mismatched lengths.\n")

/-- The constructor's per-dimension loop for one input buffer: the dummy
dimension names `i0, i1, ...`, the loop dimensions pushed for the identity
computation, and the sizes string. -/
def input_buffer_dims : List Int → Nat → List Loop × List String × String
  | [], _ => ([], [], "")
  | e :: rest, i =>
      let d := "i" ++ toString i
      let (ls, ds, s) := input_buffer_dims rest (i + 1)
      (⟨d, .IntImm 32 0, .IntImm 32 e⟩ :: ls, d :: ds,
        ("coli::expr(" ++ toString e ++ ")" ++ (if rest.isEmpty then "" else ", ")) ++ s)

/-- The constructor's loop over input buffers: emit one input-role
`coli::buffer` declaration, a trivial identity `coli::computation` over the
input's full extent with its 1-to-1 buffer access, and register both, using
temporary loop-dimension scaffolding popped right after. -/
def construct_inputs : List String → List (List Int) → List HType →
    CGState → Except Err CGState
  | [], [], [], st => .ok st
  | nm :: ns, ext :: exts, t :: ts, st => do
      let (new_dims, dummy_dims, sizes) := input_buffer_dims ext 0
      let st := { st with loop_dims := st.loop_dims ++ new_dims }
      let buffer_name := "buff_" ++ nm
      let ts_str ← halide_type_to_coli_type_str t
      let st := do_indent st
      let st := emit st ("coli::buffer " ++ buffer_name ++ "(\"" ++ buffer_name ++
        "\", " ++ toString ext.length ++ ", \x7b" ++ sizes ++ "\x7d, " ++ ts_str ++
        ", NULL, coli::a_input, &" ++ st.func ++ ");\n")
      let st := { st with input_buffers := set_insert st.input_buffers buffer_name }
      let dims_str := vec_to_string dummy_dims
      let symbolic_str := get_loop_bound_vars st.loop_dims
      let iter_space_str :=
        if symbolic_str ≠ "" then
          get_loop_bound_vars st.loop_dims ++ "->\x7b" ++ nm ++ dims_str ++ ": " ++
            get_loop_bounds st.loop_dims ++ "\x7d"
        else
          "\x7b" ++ nm ++ dims_str ++ ": " ++ get_loop_bounds st.loop_dims ++ "\x7d"
      let st := do_indent st
      let st := emit st ("coli::computation " ++ nm ++ "(\"" ++ iter_space_str ++
        "\", expr(), false, " ++ ts_str ++ ", &" ++ st.func ++ ");\n")
      let access_str := "\x7b" ++ nm ++ dims_str ++ "->" ++ "buff_" ++ nm ++ dims_str ++ "\x7d"
      let st := do_indent st
      let st := emit st (nm ++ ".set_access(\"" ++ access_str ++ "\");\n")
      let st := emit st "\n"
      let st := { st with computation_list := set_insert st.computation_list nm }
      construct_inputs ns exts ts
        { st with loop_dims := st.loop_dims.take (st.loop_dims.length - new_dims.length) }
  | _, _, _, _ => .error (.internal "Input description lists have mismatched lengths.\n")

/-- The `CodeGen_Coli` constructor: check the argument-list lengths, emit the
fixed preamble (includes, using-directive, `main`, default options, the named
`coli::function`), then declare the output buffers and the input buffers with
their identity computations. -/
def codegen_construct (pipeline_name : String) (outputs : List HalideFunction)
    (output_buffer_extents : List (List Int)) (output_buffer_types : List HType)
    (inputs : List String) (input_buffer_extents : List (List Int))
    (input_buffer_types : List HType) : Except Err CGState :=
  if outputs.length = output_buffer_extents.length ∧
      output_buffer_extents.length = output_buffer_types.length ∧
      inputs.length = input_buffer_extents.length ∧
      input_buffer_extents.length = input_buffer_types.length then
    let st : CGState :=
      { func := pipeline_name, scope := [], loop_dims := [], computation_list := [],
        constant_list := [], output_buffers := [], input_buffers := [],
        temporary_buffers := [], indent := 0, out := "" }
    let st := emit st (headers ++ "\n\n")
    let st := emit st "using namespace coli;\n\n"
    let st := emit st "int main(int argc, char **argv)\n"
    let st := emit st "\x7b\n"
    let st := { st with indent := st.indent + tab_size }
    let st := do_indent st
    let st := emit st "// Set default coli options.\n"
    let st := do_indent st
    let st := emit st "global::set_default_coli_options();\n\n"
    let st := do_indent st
    let st := emit st ("coli::function " ++ st.func ++ "(\"" ++ st.func ++ "\");\n")
    (do
      let st ← construct_outputs outputs output_buffer_extents output_buffer_types st
      construct_inputs inputs input_buffer_extents input_buffer_types st)
  else .error (.internal "Constructor argument lists have mismatched lengths.\n")

/-- The destructor's output-buffer loop: `&name` per element, with `", "`
after every element but the last. -/
def outputs_part : List String → String
  | [] => ""
  | b :: rest => "&" ++ b ++ (if rest.isEmpty then "" else ", ") ++ outputs_part rest

/-- The destructor's input-buffer loop: a leading `", "` before the first
element when any output buffer was emitted, then `&name` per element with
`", "` after every element but the last. -/
def inputs_part : Bool → List String → String
  | _, [] => ""
  | sep0, b :: rest =>
      (if sep0 then ", " else "") ++ "&" ++ b ++ (if rest.isEmpty then "" else ", ") ++
        inputs_part false rest

/-- The destructor's argument enumeration: outputs then inputs, inside
braces. -/
def buffers_stream (outs ins : List String) : String :=
  "\x7b" ++ outputs_part outs ++ inputs_part (!outs.isEmpty) ins ++ "\x7d"

/-- The `CodeGen_Coli` destructor: one `set_arguments` call enumerating the
output buffers then the input buffers, the four finalization calls, and the
closing brace of `main`. -/
def destructor (st : CGState) : String :=
  "\n" ++ indent_spaces st.indent ++ st.func ++ ".set_arguments(" ++
    buffers_stream st.output_buffers st.input_buffers ++ ");\n" ++
  indent_spaces st.indent ++ st.func ++ ".gen_isl_ast();\n" ++
  indent_spaces st.indent ++ st.func ++ ".gen_halide_stmt();\n" ++
  indent_spaces st.indent ++ st.func ++ ".dump_halide_stmt();\n" ++
  indent_spaces st.indent ++ st.func ++ ".gen_halide_obj(\"build/generated_" ++
    st.func ++ "_test.o\");\n" ++
  indent_spaces (st.indent - tab_size) ++ "\x7d\n\n"

/-- The public entry point `print_to_coli`: normalize variable names,
construct the generator (which emits the prologue), print the statement tree,
and — only when everything succeeded — finalize the stream with the
destructor's epilogue.  On any error the stream is never finalized and no
output text is produced. -/
def print_to_coli (fuel : Nat) (s : Stmt) (pipeline_name : String)
    (outputs : List HalideFunction) (output_buffer_extents : List (List Int))
    (output_buffer_types : List HType) (inputs : List String)
    (input_buffer_extents : List (List Int)) (input_buffer_types : List HType) :
    Except Err String :=
  let s := normalize_stmt s
  match codegen_construct pipeline_name outputs output_buffer_extents
      output_buffer_types inputs input_buffer_extents input_buffer_types with
  | .error e => .error e
  | .ok st =>
    match print_stmt fuel s st with
    | .error e => .error e
    | .ok st => .ok (st.out ++ destructor st)

mutual

/-- An expression contains no expression-level let-binding. -/
def let_free : Expr → Bool
  | .Let _ _ _ => false
  | .IntImm _ _ => true
  | .UIntImm _ _ => true
  | .FloatImm _ _ => true
  | .StringImm _ => true
  | .Cast _ e => let_free e
  | .Var _ _ _ _ => true
  | .Add a b => let_free a && let_free b
  | .Sub a b => let_free a && let_free b
  | .Mul a b => let_free a && let_free b
  | .Div a b => let_free a && let_free b
  | .Mod a b => let_free a && let_free b
  | .Min a b => let_free a && let_free b
  | .Max a b => let_free a && let_free b
  | .EQ a b => let_free a && let_free b
  | .NE a b => let_free a && let_free b
  | .LT a b => let_free a && let_free b
  | .LE a b => let_free a && let_free b
  | .GT a b => let_free a && let_free b
  | .GE a b => let_free a && let_free b
  | .And a b => let_free a && let_free b
  | .Or a b => let_free a && let_free b
  | .Not a => let_free a
  | .Select c t f => let_free c && (let_free t && let_free f)
  | .Load _ _ i => let_free i
  | .Ramp b s _ => let_free b && let_free s
  | .Broadcast v _ => let_free v
  | .Call _ _ _ args => let_free_list args

/-- Pointwise `let_free` over an argument list. -/
def let_free_list : List Expr → Bool
  | [] => true
  | e :: es => let_free e && let_free_list es

end

/-- Pointwise `let_free` over a range list. -/
def let_free_bounds : List (Expr × Expr) → Bool
  | [] => true
  | (a, b) :: rest => let_free a && (let_free b && let_free_bounds rest)

/-- A statement contains no expression-level let-binding in any embedded
expression (statement-level lets are allowed). -/
def let_free_stmt : Stmt → Bool
  | .LetStmt _ v b => let_free v && let_free_stmt b
  | .AssertStmt c m => let_free c && let_free m
  | .ProducerConsumer _ _ b => let_free_stmt b
  | .For _ mn ex b => let_free mn && (let_free ex && let_free_stmt b)
  | .Store _ v i => let_free v && let_free i
  | .Provide _ vs args => let_free_list vs && let_free_list args
  | .Allocate _ _ ex b => let_free_list ex && let_free_stmt b
  | .Free _ => true
  | .Realize _ _ bs b => let_free_bounds bs && let_free_stmt b
  | .Block f r =>
      let_free_stmt f &&
        (match r with
         | some s => let_free_stmt s
         | none => true)
  | .IfThenElse c t e =>
      let_free c &&
        (let_free_stmt t &&
          (match e with
           | some s => let_free_stmt s
           | none => true))
  | .Evaluate v => let_free v

/-- Every expression in a replacement map is let-free. -/
def let_free_map : List (String × Expr) → Bool
  | [] => true
  | p :: rest => let_free p.2 && let_free_map rest

theorem assoc_lookup_let_free :
    ∀ (m : List (String × Expr)) (n : String) (r : Expr),
      let_free_map m = true → assoc_lookup n m = some r → let_free r = true
  | [], _, _, _, h => by simp [assoc_lookup] at h
  | (k, v) :: rest, n, r, hm, h => by
      simp only [let_free_map, Bool.and_eq_true] at hm
      simp only [assoc_lookup] at h
      split at h
      · cases h
        exact hm.1
      · exact assoc_lookup_let_free rest n r hm.2 h

mutual

theorem substitute_let_free :
    ∀ (m : List (String × Expr)) (e : Expr),
      let_free_map m = true → let_free e = true → let_free (substitute m e) = true
  | m, .Var t n p i, hm, _ => by
      simp only [substitute]
      split
      · next r h => exact assoc_lookup_let_free m n r hm h
      · rfl
  | _, .IntImm _ _, _, _ => rfl
  | _, .UIntImm _ _, _, _ => rfl
  | _, .FloatImm _ _, _, _ => rfl
  | _, .StringImm _, _, _ => rfl
  | m, .Cast _ e, hm, he => by
      simp only [substitute, let_free] at he ⊢
      exact substitute_let_free m e hm he
  | m, .Add a b, hm, he => by
      simp only [substitute, let_free, Bool.and_eq_true] at he ⊢
      exact ⟨substitute_let_free m a hm he.1, substitute_let_free m b hm he.2⟩
  | m, .Sub a b, hm, he => by
      simp only [substitute, let_free, Bool.and_eq_true] at he ⊢
      exact ⟨substitute_let_free m a hm he.1, substitute_let_free m b hm he.2⟩
  | m, .Mul a b, hm, he => by
      simp only [substitute, let_free, Bool.and_eq_true] at he ⊢
      exact ⟨substitute_let_free m a hm he.1, substitute_let_free m b hm he.2⟩
  | m, .Div a b, hm, he => by
      simp only [substitute, let_free, Bool.and_eq_true] at he ⊢
      exact ⟨substitute_let_free m a hm he.1, substitute_let_free m b hm he.2⟩
  | m, .Mod a b, hm, he => by
      simp only [substitute, let_free, Bool.and_eq_true] at he ⊢
      exact ⟨substitute_let_free m a hm he.1, substitute_let_free m b hm he.2⟩
  | m, .Min a b, hm, he => by
      simp only [substitute, let_free, Bool.and_eq_true] at he ⊢
      exact ⟨substitute_let_free m a hm he.1, substitute_let_free m b hm he.2⟩
  | m, .Max a b, hm, he => by
      simp only [substitute, let_free, Bool.and_eq_true] at he ⊢
      exact ⟨substitute_let_free m a hm he.1, substitute_let_free m b hm he.2⟩
  | m, .EQ a b, hm, he => by
      simp only [substitute, let_free, Bool.and_eq_true] at he ⊢
      exact ⟨substitute_let_free m a hm he.1, substitute_let_free m b hm he.2⟩
  | m, .NE a b, hm, he => by
      simp only [substitute, let_free, Bool.and_eq_true] at he ⊢
      exact ⟨substitute_let_free m a hm he.1, substitute_let_free m b hm he.2⟩
  | m, .LT a b, hm, he => by
      simp only [substitute, let_free, Bool.and_eq_true] at he ⊢
      exact ⟨substitute_let_free m a hm he.1, substitute_let_free m b hm he.2⟩
  | m, .LE a b, hm, he => by
      simp only [substitute, let_free, Bool.and_eq_true] at he ⊢
      exact ⟨substitute_let_free m a hm he.1, substitute_let_free m b hm he.2⟩
  | m, .GT a b, hm, he => by
      simp only [substitute, let_free, Bool.and_eq_true] at he ⊢
      exact ⟨substitute_let_free m a hm he.1, substitute_let_free m b hm he.2⟩
  | m, .GE a b, hm, he => by
      simp only [substitute, let_free, Bool.and_eq_true] at he ⊢
      exact ⟨substitute_let_free m a hm he.1, substitute_let_free m b hm he.2⟩
  | m, .And a b, hm, he => by
      simp only [substitute, let_free, Bool.and_eq_true] at he ⊢
      exact ⟨substitute_let_free m a hm he.1, substitute_let_free m b hm he.2⟩
  | m, .Or a b, hm, he => by
      simp only [substitute, let_free, Bool.and_eq_true] at he ⊢
      exact ⟨substitute_let_free m a hm he.1, substitute_let_free m b hm he.2⟩
  | m, .Not a, hm, he => by
      simp only [substitute, let_free] at he ⊢
      exact substitute_let_free m a hm he
  | m, .Select c t f, hm, he => by
      simp only [substitute, let_free, Bool.and_eq_true] at he ⊢
      exact ⟨substitute_let_free m c hm he.1,
        substitute_let_free m t hm he.2.1, substitute_let_free m f hm he.2.2⟩
  | m, .Load _ _ i, hm, he => by
      simp only [substitute, let_free] at he ⊢
      exact substitute_let_free m i hm he
  | m, .Ramp b s _, hm, he => by
      simp only [substitute, let_free, Bool.and_eq_true] at he ⊢
      exact ⟨substitute_let_free m b hm he.1, substitute_let_free m s hm he.2⟩
  | m, .Broadcast v _, hm, he => by
      simp only [substitute, let_free] at he ⊢
      exact substitute_let_free m v hm he
  | m, .Call _ _ _ args, hm, he => by
      simp only [substitute, let_free] at he ⊢
      exact substitute_list_let_free m args hm he
  | _, .Let _ _ _, _, he => by simp [let_free] at he

theorem substitute_list_let_free :
    ∀ (m : List (String × Expr)) (es : List Expr),
      let_free_map m = true → let_free_list es = true →
      let_free_list (substitute_list m es) = true
  | _, [], _, _ => rfl
  | m, e :: es, hm, he => by
      simp only [substitute_list, let_free_list, Bool.and_eq_true] at he ⊢
      exact ⟨substitute_let_free m e hm he.1, substitute_list_let_free m es hm he.2⟩

end

mutual

theorem sial_let_free : ∀ e : Expr, let_free (substitute_in_all_lets e) = true
  | .IntImm _ _ => rfl
  | .UIntImm _ _ => rfl
  | .FloatImm _ _ => rfl
  | .StringImm _ => rfl
  | .Var _ _ _ _ => rfl
  | .Cast _ e => by
      simp only [substitute_in_all_lets, let_free]
      exact sial_let_free e
  | .Add a b => by
      simp only [substitute_in_all_lets, let_free, Bool.and_eq_true]
      exact ⟨sial_let_free a, sial_let_free b⟩
  | .Sub a b => by
      simp only [substitute_in_all_lets, let_free, Bool.and_eq_true]
      exact ⟨sial_let_free a, sial_let_free b⟩
  | .Mul a b => by
      simp only [substitute_in_all_lets, let_free, Bool.and_eq_true]
      exact ⟨sial_let_free a, sial_let_free b⟩
  | .Div a b => by
      simp only [substitute_in_all_lets, let_free, Bool.and_eq_true]
      exact ⟨sial_let_free a, sial_let_free b⟩
  | .Mod a b => by
      simp only [substitute_in_all_lets, let_free, Bool.and_eq_true]
      exact ⟨sial_let_free a, sial_let_free b⟩
  | .Min a b => by
      simp only [substitute_in_all_lets, let_free, Bool.and_eq_true]
      exact ⟨sial_let_free a, sial_let_free b⟩
  | .Max a b => by
      simp only [substitute_in_all_lets, let_free, Bool.and_eq_true]
      exact ⟨sial_let_free a, sial_let_free b⟩
  | .EQ a b => by
      simp only [substitute_in_all_lets, let_free, Bool.and_eq_true]
      exact ⟨sial_let_free a, sial_let_free b⟩
  | .NE a b => by
      simp only [substitute_in_all_lets, let_free, Bool.and_eq_true]
      exact ⟨sial_let_free a, sial_let_free b⟩
  | .LT a b => by
      simp only [substitute_in_all_lets, let_free, Bool.and_eq_true]
      exact ⟨sial_let_free a, sial_let_free b⟩
  | .LE a b => by
      simp only [substitute_in_all_lets, let_free, Bool.and_eq_true]
      exact ⟨sial_let_free a, sial_let_free b⟩
  | .GT a b => by
      simp only [substitute_in_all_lets, let_free, Bool.and_eq_true]
      exact ⟨sial_let_free a, sial_let_free b⟩
  | .GE a b => by
      simp only [substitute_in_all_lets, let_free, Bool.and_eq_true]
      exact ⟨sial_let_free a, sial_let_free b⟩
  | .And a b => by
      simp only [substitute_in_all_lets, let_free, Bool.and_eq_true]
      exact ⟨sial_let_free a, sial_let_free b⟩
  | .Or a b => by
      simp only [substitute_in_all_lets, let_free, Bool.and_eq_true]
      exact ⟨sial_let_free a, sial_let_free b⟩
  | .Not a => by
      simp only [substitute_in_all_lets, let_free]
      exact sial_let_free a
  | .Select c t f => by
      simp only [substitute_in_all_lets, let_free, Bool.and_eq_true]
      exact ⟨sial_let_free c, sial_let_free t, sial_let_free f⟩
  | .Load _ _ i => by
      simp only [substitute_in_all_lets, let_free]
      exact sial_let_free i
  | .Ramp b s _ => by
      simp only [substitute_in_all_lets, let_free, Bool.and_eq_true]
      exact ⟨sial_let_free b, sial_let_free s⟩
  | .Broadcast v _ => by
      simp only [substitute_in_all_lets, let_free]
      exact sial_let_free v
  | .Call _ _ _ args => by
      simp only [substitute_in_all_lets, let_free]
      exact sial_list_let_free args
  | .Let n v b => by
      simp only [substitute_in_all_lets]
      refine substitute_let_free [(n, substitute_in_all_lets v)]
        (substitute_in_all_lets b) ?_ (sial_let_free b)
      simp only [let_free_map, Bool.and_eq_true]
      exact ⟨sial_let_free v, trivial⟩

theorem sial_list_let_free :
    ∀ es : List Expr, let_free_list (substitute_in_all_lets_list es) = true
  | [] => rfl
  | e :: es => by
      simp only [substitute_in_all_lets_list, let_free_list, Bool.and_eq_true]
      exact ⟨sial_let_free e, sial_list_let_free es⟩

end

theorem sial_bounds_let_free :
    ∀ bs : List (Expr × Expr),
      let_free_bounds (substitute_in_all_lets_bounds bs) = true
  | [] => rfl
  | (a, b) :: rest => by
      simp only [substitute_in_all_lets_bounds, List.map, let_free_bounds,
        Bool.and_eq_true]
      exact ⟨sial_let_free a, sial_let_free b, sial_bounds_let_free rest⟩

theorem sial_stmt_let_free :
    ∀ s : Stmt, let_free_stmt (substitute_in_all_lets_stmt s) = true
  | .LetStmt _ v b => by
      simp only [substitute_in_all_lets_stmt, let_free_stmt, Bool.and_eq_true]
      exact ⟨sial_let_free v, sial_stmt_let_free b⟩
  | .AssertStmt c m => by
      simp only [substitute_in_all_lets_stmt, let_free_stmt, Bool.and_eq_true]
      exact ⟨sial_let_free c, sial_let_free m⟩
  | .ProducerConsumer _ _ b => by
      simp only [substitute_in_all_lets_stmt, let_free_stmt]
      exact sial_stmt_let_free b
  | .For _ mn ex b => by
      simp only [substitute_in_all_lets_stmt, let_free_stmt, Bool.and_eq_true]
      exact ⟨sial_let_free mn, sial_let_free ex, sial_stmt_let_free b⟩
  | .Store _ v i => by
      simp only [substitute_in_all_lets_stmt, let_free_stmt, Bool.and_eq_true]
      exact ⟨sial_let_free v, sial_let_free i⟩
  | .Provide _ vs args => by
      simp only [substitute_in_all_lets_stmt, let_free_stmt, Bool.and_eq_true]
      exact ⟨sial_list_let_free vs, sial_list_let_free args⟩
  | .Allocate _ _ ex b => by
      simp only [substitute_in_all_lets_stmt, let_free_stmt, Bool.and_eq_true]
      exact ⟨sial_list_let_free ex, sial_stmt_let_free b⟩
  | .Free _ => rfl
  | .Realize _ _ bs b => by
      simp only [substitute_in_all_lets_stmt, let_free_stmt, Bool.and_eq_true]
      exact ⟨sial_bounds_let_free bs, sial_stmt_let_free b⟩
  | .Block f (some r) => by
      simp only [substitute_in_all_lets_stmt, let_free_stmt, Bool.and_eq_true]
      exact ⟨sial_stmt_let_free f, sial_stmt_let_free r⟩
  | .Block f none => by
      simp only [substitute_in_all_lets_stmt, let_free_stmt, Bool.and_eq_true]
      exact ⟨sial_stmt_let_free f, trivial⟩
  | .IfThenElse c t (some e) => by
      simp only [substitute_in_all_lets_stmt, let_free_stmt, Bool.and_eq_true]
      exact ⟨sial_let_free c, sial_stmt_let_free t, sial_stmt_let_free e⟩
  | .IfThenElse c t none => by
      simp only [substitute_in_all_lets_stmt, let_free_stmt, Bool.and_eq_true]
      exact ⟨sial_let_free c, sial_stmt_let_free t, trivial⟩
  | .Evaluate v => by
      simp only [substitute_in_all_lets_stmt, let_free_stmt]
      exact sial_let_free v

theorem str_empty_append (s : String) : "" ++ s = s := by
  cases s
  rfl

theorem outputs_part_eq :
    ∀ l : List String, outputs_part l = joinSep ", " (l.map fun b => "&" ++ b)
  | [] => rfl
  | [b] => by
      show "&" ++ b ++ "" ++ "" = "&" ++ b
      rw [String.append_empty, String.append_empty]
  | b :: c :: cs => by
      show "&" ++ b ++ ", " ++ outputs_part (c :: cs) =
        "&" ++ b ++ ", " ++ joinSep ", " ((c :: cs).map fun x => "&" ++ x)
      rw [outputs_part_eq (c :: cs)]

theorem inputs_part_false_eq :
    ∀ l : List String, inputs_part false l = joinSep ", " (l.map fun b => "&" ++ b)
  | [] => rfl
  | [b] => by
      show "" ++ "&" ++ b ++ "" ++ "" = "&" ++ b
      rw [str_empty_append, String.append_empty, String.append_empty]
  | b :: c :: cs => by
      show "" ++ "&" ++ b ++ ", " ++ inputs_part false (c :: cs) =
        "&" ++ b ++ ", " ++ joinSep ", " ((c :: cs).map fun x => "&" ++ x)
      rw [str_empty_append, inputs_part_false_eq (c :: cs)]

theorem inputs_part_true_eq :
    ∀ l : List String,
      inputs_part true l =
        (if l.isEmpty then "" else ", " ++ joinSep ", " (l.map fun b => "&" ++ b))
  | [] => rfl
  | [b] => by
      show ", " ++ "&" ++ b ++ "" ++ "" = ", " ++ ("&" ++ b)
      rw [String.append_empty, String.append_empty, String.append_assoc]
  | b :: c :: cs => by
      show ", " ++ "&" ++ b ++ ", " ++ inputs_part false (c :: cs) =
        ", " ++ ("&" ++ b ++ ", " ++ joinSep ", " ((c :: cs).map fun x => "&" ++ x))
      rw [inputs_part_false_eq (c :: cs)]
      rw [← String.append_assoc, ← String.append_assoc, ← String.append_assoc]

theorem joinSep_append (sep : String) :
    ∀ (a b : List String), a ≠ [] → b ≠ [] →
      joinSep sep (a ++ b) = joinSep sep a ++ sep ++ joinSep sep b
  | [], _, ha, _ => absurd rfl ha
  | [_], [], _, hb => absurd rfl hb
  | [x], y :: yt, _, _ => rfl
  | x :: x2 :: xs, b, _, hb => by
      show x ++ sep ++ joinSep sep ((x2 :: xs) ++ b) =
        x ++ sep ++ joinSep sep (x2 :: xs) ++ sep ++ joinSep sep b
      rw [joinSep_append sep (x2 :: xs) b (by simp) hb]
      simp [String.append_assoc]

theorem buffers_stream_eq (outs ins : List String) :
    buffers_stream outs ins =
      "\x7b" ++ joinSep ", " ((outs ++ ins).map fun b => "&" ++ b) ++ "\x7d" := by
  cases outs with
  | nil =>
      cases ins with
      | nil => rfl
      | cons y yt =>
          show "\x7b" ++ "" ++ inputs_part false (y :: yt) ++ "\x7d" =
            "\x7b" ++ joinSep ", " ((y :: yt).map fun b => "&" ++ b) ++ "\x7d"
          rw [String.append_empty, inputs_part_false_eq (y :: yt)]
  | cons x xt =>
      cases ins with
      | nil =>
          rw [List.append_nil]
          calc buffers_stream (x :: xt) []
              = "\x7b" ++ outputs_part (x :: xt) ++ "" ++ "\x7d" := rfl
            _ = "\x7b" ++ joinSep ", " ((x :: xt).map fun b => "&" ++ b) ++ "" ++ "\x7d" := by
                rw [outputs_part_eq (x :: xt)]
            _ = "\x7b" ++ joinSep ", " ((x :: xt).map fun b => "&" ++ b) ++ "\x7d" := by
                rw [String.append_empty]
      | cons y yt =>
          have h := joinSep_append ", " ((x :: xt).map fun b => "&" ++ b)
            ((y :: yt).map fun b => "&" ++ b) (by simp) (by simp)
          calc buffers_stream (x :: xt) (y :: yt)
              = "\x7b" ++ outputs_part (x :: xt) ++ inputs_part true (y :: yt) ++ "\x7d" := rfl
            _ = "\x7b" ++ joinSep ", " ((x :: xt).map fun b => "&" ++ b) ++
                  (", " ++ joinSep ", " ((y :: yt).map fun b => "&" ++ b)) ++ "\x7d" := by
                rw [outputs_part_eq (x :: xt), inputs_part_true_eq (y :: yt)]
                simp
            _ = "\x7b" ++ joinSep ", " ((x :: xt ++ y :: yt).map fun b => "&" ++ b) ++ "\x7d" := by
                rw [List.map_append, h]
                simp [String.append_assoc]

/-- The destructor's output as the specification describes it: one
argument-binding call enumerating all output buffers then all input buffers
(one joined list, temporaries absent), followed by exactly four fixed calls
in this order — generate schedule (`gen_isl_ast`), lower to final form
(`gen_halide_stmt`), dump intermediate form (`dump_halide_stmt`), emit
compiled object (`gen_halide_obj`) — then the closing of the function body. -/
def epilogue_spec (st : CGState) : String :=
  "\n" ++ indent_spaces st.indent ++ st.func ++ ".set_arguments(" ++
    ("\x7b" ++
      joinSep ", " ((st.output_buffers ++ st.input_buffers).map fun b => "&" ++ b) ++
      "\x7d") ++ ");\n" ++
  indent_spaces st.indent ++ st.func ++ ".gen_isl_ast();\n" ++
  indent_spaces st.indent ++ st.func ++ ".gen_halide_stmt();\n" ++
  indent_spaces st.indent ++ st.func ++ ".dump_halide_stmt();\n" ++
  indent_spaces st.indent ++ st.func ++ ".gen_halide_obj(\"build/generated_" ++
    st.func ++ "_test.o\");\n" ++
  indent_spaces (st.indent - tab_size) ++ "\x7d\n\n"

/-- `boundVars` as the specification describes it: among the currently active
dimensions, in push order, the subset of min/extent subexpressions that are
not compile-time constants. -/
def bound_vars_spec (dims : List Loop) : List Expr :=
  ((dims.map fun d => [d.min, d.extent]).flatten).filter fun e => ! is_const e

theorem relevant_exprs_eq_spec :
    ∀ dims : List Loop, relevant_exprs dims = bound_vars_spec dims
  | [] => rfl
  | d :: ds => by
      have ih := relevant_exprs_eq_spec ds
      simp only [relevant_exprs, bound_vars_spec, List.map, List.flatten,
        List.filter_append, List.filter, List.cons_append, List.nil_append] at ih ⊢
      cases h1 : is_const d.min <;> cases h2 : is_const d.extent <;>
        simp_all [bound_vars_spec]

theorem vec_to_string_ne_empty (l : List String) : vec_to_string l ≠ "" := by
  intro h
  have h2 := congrArg String.length h
  simp only [vec_to_string, String.length_append] at h2
  have h3 : "[".length = 1 := rfl
  have h4 : "]".length = 1 := rfl
  have h5 : String.length "" = 0 := rfl
  omega

theorem sanitize_chars_mem (c x : Char) (hx : x ∈ sanitize_chars c) :
    x = '_' ∨ x.isAlphanum = true := by
  unfold sanitize_chars at hx
  by_cases h1 : c = '.'
  · rw [if_pos h1] at hx
    simp at hx
    exact Or.inl hx
  · rw [if_neg h1] at hx
    by_cases h2 : c = '$'
    · rw [if_pos h2] at hx
      simp at hx
      exact Or.inl hx
    · rw [if_neg h2] at hx
      by_cases h3 : c ≠ '_' ∧ ¬ c.isAlphanum = true
      · rw [if_pos h3] at hx
        simp at hx
        exact Or.inl hx
      · rw [if_neg h3] at hx
        simp at hx
        subst hx
        by_cases he : x = '_'
        · exact Or.inl he
        · right
          by_contra hn
          exact h3 ⟨he, hn⟩

theorem sanitize_chars_fixed (x : Char) (h : x = '_' ∨ x.isAlphanum = true) :
    sanitize_chars x = [x] := by
  have h1 : x ≠ '.' := by
    rintro rfl
    rcases h with h | h <;> exact absurd h (by decide)
  have h2 : x ≠ '$' := by
    rintro rfl
    rcases h with h | h <;> exact absurd h (by decide)
  have h3 : ¬(x ≠ '_' ∧ ¬ x.isAlphanum = true) := by
    rcases h with h | h
    · exact fun hc => hc.1 h
    · exact fun hc => hc.2 h
  unfold sanitize_chars
  rw [if_neg h1, if_neg h2, if_neg h3]

theorem flatten_sanitize_fixed :
    ∀ l : List Char, (∀ x ∈ l, x = '_' ∨ x.isAlphanum = true) →
      (l.map sanitize_chars).flatten = l
  | [], _ => rfl
  | c :: cs, h => by
      simp only [List.map, List.flatten_cons]
      rw [sanitize_chars_fixed c (h c (by simp)),
        flatten_sanitize_fixed cs (fun x hx => h x (by simp [hx]))]
      rfl

theorem print_name_chars (s : String) :
    ∀ x ∈ (print_name s).data, x = '_' ∨ x.isAlphanum = true := by
  intro x hx
  replace hx :
      x ∈ (if (s.data.headD (Char.ofNat 0)).isAlpha then ['_'] else []) ++
        (s.data.map sanitize_chars).flatten := hx
  rcases List.mem_append.mp hx with h | h
  · left
    split at h
    · simpa using h
    · simp at h
  · rcases List.mem_flatten.mp h with ⟨l, hl, hxl⟩
    rcases List.mem_map.mp hl with ⟨c, _, rfl⟩
    exact sanitize_chars_mem c x hxl

theorem sanitize_chars_head_not_alpha (c : Char) (hc : c.isAlpha = false)
    (rest : List Char) :
    ((sanitize_chars c ++ rest).headD (Char.ofNat 0)).isAlpha = false := by
  unfold sanitize_chars
  by_cases h1 : c = '.'
  · rw [if_pos h1]
    rfl
  · rw [if_neg h1]
    by_cases h2 : c = '$'
    · rw [if_pos h2]
      rfl
    · rw [if_neg h2]
      by_cases h3 : c ≠ '_' ∧ ¬ c.isAlphanum = true
      · rw [if_pos h3]
        rfl
      · rw [if_neg h3]
        exact hc

theorem print_name_head_not_alpha (s : String) :
    ((print_name s).data.headD (Char.ofNat 0)).isAlpha = false := by
  have hd : (print_name s).data =
      (if (s.data.headD (Char.ofNat 0)).isAlpha then ['_'] else []) ++
        (s.data.map sanitize_chars).flatten := rfl
  rw [hd]
  cases hh : (s.data.headD (Char.ofNat 0)).isAlpha with
  | true => rfl
  | false =>
      cases hsd : s.data with
      | nil => rfl
      | cons c cs =>
          rw [hsd] at hh
          replace hh : c.isAlpha = false := hh
          show (((sanitize_chars c :: cs.map sanitize_chars).flatten).headD
            (Char.ofNat 0)).isAlpha = false
          rw [List.flatten_cons]
          exact sanitize_chars_head_not_alpha c hh _

/-- A minimal generator state for concrete evaluations. -/
def empty_state : CGState :=
  { func := "p", scope := [], loop_dims := [], computation_list := [],
    constant_list := [], output_buffers := [], input_buffers := [],
    temporary_buffers := [], indent := tab_size, out := "" }

/-- A state in which a computation named "f" and an output buffer "buff_f"
are already registered. -/
def c3_dup_state : CGState :=
  { empty_state with computation_list := ["f"], output_buffers := ["buff_f"] }

/-- Two Store/Provide statements with the same destination name "f". -/
def c3_stmt : Stmt :=
  .Block (.Provide "f" [.IntImm 32 1] [.Var (.int 32) "x" false false])
    (some (.Provide "f" [.IntImm 32 1] [.Var (.int 32) "x" false false]))

/-- A state with one active loop dimension. -/
def c8_state : CGState :=
  { empty_state with loop_dims := [⟨"x", .IntImm 32 0, .IntImm 32 4⟩] }

/-- C1: evaluating the for-loop visitor's replacement-map construction on the
code shows the claim false: with distinct min/extent variable names ("mn",
"ex") bound in the scope, the map contains the loop's own min and extent
names — the guard `(name != min) || (name != extent)` is a tautology for
distinct names — whereas the claim says exactly the *other* bound variables
are included; only when the two names coincide is that one name excluded. -/
theorem c1_replacement_map_contains_loop_bound_names :
    build_replacements [("mn", .IntImm 32 0), ("ex", .IntImm 32 4)] "mn" "ex" =
      [("mn", .IntImm 32 0), ("ex", .IntImm 32 4)]
    ∧ assoc_lookup "mn"
        (build_replacements [("mn", .IntImm 32 0), ("ex", .IntImm 32 4)] "mn" "ex") =
        some (.IntImm 32 0)
    ∧ build_replacements [("n", .IntImm 32 0)] "n" "n" = [] :=
  ⟨rfl, rfl, rfl⟩

/-- C2 (counterexample): a string-literal node sitting in a position the
traversal never visits — here the value of an `Evaluate` statement — does not
abort the translation: the full program text is produced, contradicting the
claim that a string-literal node anywhere in the tree makes translation abort
before the output is finalized. -/
theorem c2_counterexample :
    (print_to_coli 2 (.Evaluate (.StringImm "str")) "p" [] [] [] [] [] []).isOk = true :=
  rfl

/-- C2 (amended): whenever the traversal of the tree aborts with a fatal
error, the abort happens before the output stream is finalized — `print_to_coli`
propagates the error and produces no output text at all — and a string-literal
node that the traversal actually visits aborts with a fatal user error. -/
theorem c2_abort_before_finalize :
    (∀ (fuel : Nat) (s : Stmt) (pn : String) (outs : List HalideFunction)
        (oext : List (List Int)) (ot : List HType) (ins : List String)
        (iext : List (List Int)) (it : List HType) (st : CGState) (e : Err),
        codegen_construct pn outs oext ot ins iext it = .ok st →
        print_stmt fuel (normalize_stmt s) st = .error e →
        print_to_coli fuel s pn outs oext ot ins iext it = .error e)
    ∧ (∀ (fuel : Nat) (v : String) (st : CGState),
        visit_expr (fuel + 1) (.StringImm v) st =
          .error (.user "Conversion of StringImm to COLi is not supported.\n")) := by
  constructor
  · intro fuel s pn outs oext ot ins iext it st e h1 h2
    simp [print_to_coli, h1, h2]
  · intro fuel v st
    rfl

/-- C2 witness: a tree whose traversal aborts (a `Free` node) makes the whole
translation return that error, with no finalized output. -/
theorem c2_abort_before_finalize_witness :
    print_to_coli 1 (.Free "x") "p" [] [] [] [] [] [] =
      .error (.user "Conversion of Free to COLi is not supported.\n") :=
  c2_abort_before_finalize.1 1 (.Free "x") "p" [] [] [] [] [] [] _ _ rfl rfl

/-- C3 (counterexample): translating two Provide nodes with the same
destination name makes the second fail with the duplicate-computation
message, but the error is raised on the internal-invariant channel
(`internal_assert`), not as a user-facing error as the claim states. -/
theorem c3_counterexample :
    print_to_coli 5 c3_stmt "p" [⟨"f", ["x"]⟩] [[4]] [.int 32] [] [] [] =
      .error (.internal "Duplicate computation is not currently supported.\n")
    ∧ Err.is_user (.internal "Duplicate computation is not currently supported.\n") = false :=
  ⟨rfl, rfl⟩

/-- C3 (amended): whenever a Provide's destination name is already in the
computation registry, the visit fails with the duplicate-computation error,
raised as an internal invariant violation (`internal_assert`), not as a
user-facing error. -/
theorem c3_duplicate_provide_internal_error (fuel : Nat) (nm : String)
    (values args : List Expr) (st : CGState)
    (h : st.computation_list.contains nm = true) :
    visit_stmt (fuel + 1) (.Provide nm values args) st =
      .error (.internal "Duplicate computation is not currently supported.\n") := by
  simp only [visit_stmt]
  rw [if_pos h]

/-- C3 witness: the amended statement at a concrete duplicate Provide. -/
theorem c3_duplicate_provide_internal_error_witness :
    visit_stmt 1 (.Provide "f" [.IntImm 32 1] [.Var (.int 32) "x" false false])
        c3_dup_state =
      .error (.internal "Duplicate computation is not currently supported.\n") :=
  c3_duplicate_provide_internal_error 0 "f" [.IntImm 32 1]
    [.Var (.int 32) "x" false false] c3_dup_state rfl

/-- C4: visiting a conditional node emits exactly the text produced by
printing the then-branch alone — the visit equals `print` of the then-branch,
and neither the condition nor the else-branch (even a non-trivial one)
contributes anything to the result, with no error raised. -/
theorem c4_if_then_else_then_branch_only (fuel : Nat) (c c2 : Expr) (t : Stmt)
    (els els2 : Option Stmt) (st : CGState) :
    visit_stmt (fuel + 1) (.IfThenElse c t els) st = print_stmt fuel t st
    ∧ visit_stmt (fuel + 1) (.IfThenElse c t els) st =
        visit_stmt (fuel + 1) (.IfThenElse c2 t els2) st :=
  ⟨rfl, rfl⟩

/-- C5: on finalization the destructor writes exactly one argument-binding
call enumerating all output buffers followed by all input buffers — one
comma-joined list over `output_buffers ++ input_buffers`, temporary buffers
excluded — then exactly the four fixed calls in order (generate schedule,
lower to final form, dump intermediate form, emit compiled object), then the
closing of the function body; changing the temporary-buffer registry leaves
the epilogue unchanged. -/
theorem c5_destructor_epilogue (st : CGState) (tb : List String) :
    destructor st = epilogue_spec st
    ∧ destructor { st with temporary_buffers := tb } = destructor st := by
  constructor
  · show "\n" ++ indent_spaces st.indent ++ st.func ++ ".set_arguments(" ++
        buffers_stream st.output_buffers st.input_buffers ++ ");\n" ++
        indent_spaces st.indent ++ st.func ++ ".gen_isl_ast();\n" ++
        indent_spaces st.indent ++ st.func ++ ".gen_halide_stmt();\n" ++
        indent_spaces st.indent ++ st.func ++ ".dump_halide_stmt();\n" ++
        indent_spaces st.indent ++ st.func ++ ".gen_halide_obj(\"build/generated_" ++
        st.func ++ "_test.o\");\n" ++
        indent_spaces (st.indent - tab_size) ++ "\x7d\n\n" = epilogue_spec st
    rw [buffers_stream_eq]
    rfl
  · rfl

/-- C6: the name sanitizer is a deterministic pure function and idempotent on
already-sanitized names: sanitizing twice equals sanitizing once, for every
input string. -/
theorem c6_print_name_idempotent (s : String) :
    print_name (print_name s) = print_name s := by
  have h1 := print_name_head_not_alpha s
  have h2 := flatten_sanitize_fixed (print_name s).data (print_name_chars s)
  show String.mk
      ((if ((print_name s).data.headD (Char.ofNat 0)).isAlpha then ['_'] else []) ++
        ((print_name s).data.map sanitize_chars).flatten) = print_name s
  rw [if_neg (by rw [h1]; exact Bool.false_ne_true), h2]
  rfl

/-- C7: `get_loop_bound_vars` returns, in push order, exactly the min and
extent subexpressions of the active dimensions that are not compile-time
constants — every constant bound is excluded — rendered as a bracketed list,
and returns the empty string exactly when no such subexpression exists. -/
theorem c7_loop_bound_vars (dims : List Loop) :
    get_loop_bound_vars dims =
      (if (bound_vars_spec dims).isEmpty then ""
       else vec_to_string ((bound_vars_spec dims).map halide_print))
    ∧ (get_loop_bound_vars dims = "" ↔ bound_vars_spec dims = []) := by
  have h := relevant_exprs_eq_spec dims
  have h1 : get_loop_bound_vars dims =
      (if (bound_vars_spec dims).isEmpty then ""
       else vec_to_string ((bound_vars_spec dims).map halide_print)) := by
    simp only [get_loop_bound_vars, h]
  refine ⟨h1, ?_⟩
  rw [h1]
  cases hbv : bound_vars_spec dims with
  | nil => simp
  | cons a l =>
      rw [if_neg (by simp)]
      constructor
      · intro hEq
        exact absurd hEq (vec_to_string_ne_empty _)
      · intro hc
        exact absurd hc (List.cons_ne_nil a l)

/-- C8: visiting a producer/consumer scope whose body is a single nested
scope (not a Block) leaves the loop-dimension stack exactly as it was before
the visit: the stack is snapshotted before the recursive call and restored
afterwards. -/
theorem c8_producer_consumer_restores_loop_dims (fuel : Nat) (nm : String)
    (isP : Bool) (body : Stmt) (st st2 : CGState) (hb : body.isBlock = false)
    (h : visit_stmt (fuel + 1) (.ProducerConsumer nm isP body) st = .ok st2) :
    st2.loop_dims = st.loop_dims := by
  rw [show visit_stmt (fuel + 1) (.ProducerConsumer nm isP body) st =
      (if body.isBlock then .error (.user "Does not currently handle update.\n")
       else if isP && st.computation_list.contains nm then
         .error (.internal "Found another computation with the same name.\n")
       else
         match visit_stmt fuel (substitute_in_all_lets_stmt body) st with
         | .error e => .error e
         | .ok stx => .ok { stx with loop_dims := st.loop_dims }) from rfl] at h
  rw [hb] at h
  simp only [Bool.false_eq_true, if_false] at h
  split at h
  · simp at h
  · split at h
    · simp at h
    · cases h
      rfl

/-- C8 witness: at a concrete producer/consumer node with a non-Block body
and a state with one active loop dimension, the visit succeeds and the
loop-dimension stack is unchanged. -/
theorem c8_producer_consumer_restores_loop_dims_witness :
    Stmt.isBlock (.Evaluate (.IntImm 32 0)) = false
    ∧ visit_stmt 2 (.ProducerConsumer "pc" true (.Evaluate (.IntImm 32 0))) c8_state =
        .ok c8_state
    ∧ c8_state.loop_dims = c8_state.loop_dims :=
  ⟨rfl, rfl,
    c8_producer_consumer_restores_loop_dims 1 "pc" true (.Evaluate (.IntImm 32 0))
      c8_state c8_state rfl rfl⟩

/-- C9 (counterexample): visiting an expression-level let fails, but the
diagnostic travels on the user-facing channel (`user_error`), not as an
internal invariant violation as the claim states. -/
theorem c9_counterexample :
    visit_expr 1 (.Let "x" (.IntImm 32 0) (.IntImm 32 0)) empty_state =
      .error
        (.user "Should not have encountered Let expr since we've called substitute_in_all_lets.\n")
    ∧ Err.is_user
        (.user "Should not have encountered Let expr since we've called substitute_in_all_lets.\n") =
        true :=
  ⟨rfl, rfl⟩

/-- C9 (amended): encountering an expression-level let during traversal fails
fatally — but via the user-facing error channel (`user_error`), despite
signalling a contract violation of the pre-pass — and the entry point's
pre-pass does inline all expression-level let-bindings everywhere in the
tree, so the case is unreachable through `print`. -/
theorem c9_let_visit_user_error_and_inlining :
    (∀ (fuel : Nat) (nm : String) (v b : Expr) (st : CGState),
        visit_expr (fuel + 1) (.Let nm v b) st =
          .error
            (.user "Should not have encountered Let expr since we've called substitute_in_all_lets.\n"))
    ∧ (∀ e : Expr, let_free (substitute_in_all_lets e) = true)
    ∧ (∀ s : Stmt, let_free_stmt (substitute_in_all_lets_stmt s) = true) :=
  ⟨fun _ _ _ _ _ => rfl, sial_let_free, sial_stmt_let_free⟩

/-- C10: the text emitted for a 32-bit float literal is the fixed string
"coli::expr((float)op->value);" and for a 64-bit float literal the fixed
string "coli::expr(op->value);", in both cases independent of the literal's
numeric value, which never appears in the output. -/
theorem c10_float_imm_fixed_text (fuel : Nat) (v w : Int) (st : CGState) :
    visit_expr (fuel + 1) (.FloatImm 32 v) st =
      .ok (emit st "coli::expr((float)op->value);")
    ∧ visit_expr (fuel + 1) (.FloatImm 64 v) st = .ok (emit st "coli::expr(op->value);")
    ∧ visit_expr (fuel + 1) (.FloatImm 32 v) st = visit_expr (fuel + 1) (.FloatImm 32 w) st
    ∧ visit_expr (fuel + 1) (.FloatImm 64 v) st = visit_expr (fuel + 1) (.FloatImm 64 w) st :=
  ⟨rfl, rfl, rfl, rfl⟩
